import Mathlib

/-!
# Verification of the vehicle-tracking core (`track.py`)

Shallow embedding of the tracking core of the repository: geometry
(`Point`, `Box`), per-object state (`Vehicle`), per-frame records
(`Frame`) and the `Tracker` orchestration, translated from
`src/track.py`.

Modelling conventions:
* Python integers are `Int`; Python `//` (floor division) is `Int.fdiv`.
* Heatmaps are total functions `Int → Int → ℚ` (row `y`, column `x`);
  a numpy slice `hm[y0:y1, x0:x1] *= 3` becomes a pointwise update of
  the cells with `y0 ≤ y < y1` and `x0 ≤ x < x1` (coordinates produced
  by the pipeline are in range, so no wrap-around semantics arise).
* `heatmap_threshold_per_frame` (a Python float) is a rational; Python
  `int(...)` truncation toward zero is `pyInt`.
* `math.sqrt(d) < 20` (with `d = dx^2 + dy^2 ≥ 0`) is embedded as the
  equivalent integer comparison `d < 400` (`sqrt_lt_twenty_iff` below
  justifies the equivalence over ℝ).
* Python code that would raise (dereferencing a `None` box) is embedded
  with `Option`: a `none` result marks the crash.
* The window/history deques keep the most recent element at the head of
  a `List`; `deque.appendleft` is `List.cons`, `deque.pop` (rightmost,
  i.e. oldest) is `List.dropLast`.
-/

/-- Class `Point` from `track.py`: integer coordinates. -/
structure Point where
  x : Int
  y : Int
deriving DecidableEq, Repr

/-- Squared Euclidean distance between two points.  `Point.get_distance`
in the source is `math.sqrt` of this quantity; it is only ever used in
the comparison `< 20`, which is equivalent to this squared quantity
being `< 400`. -/
def Point.get_distance_sq (a b : Point) : Int :=
  (a.x - b.x) ^ 2 + (a.y - b.y) ^ 2

/-- Function `get_center` from `track.py`: midpoint with Python floor division. -/
def get_center (a b : Point) : Point :=
  ⟨(a.x + b.x).fdiv 2, (a.y + b.y).fdiv 2⟩

/-- Corner pair `((x0, y0), (x1, y1))` as produced by the labelling step
and stored by the tracker. -/
def BoxTuple : Type := (Int × Int) × (Int × Int)

instance : DecidableEq BoxTuple := by unfold BoxTuple; infer_instance

/-- Class `Box` from `track.py`: top-left and bottom-right corners plus the
center derived at construction time. -/
structure Box where
  top_left : Point
  bottom_right : Point
  center : Point
deriving DecidableEq, Repr

/-- Constructor `Box.__init__`: build a box from a corner tuple, deriving the center. -/
def mkBox (t : BoxTuple) : Box :=
  let tl : Point := ⟨t.1.1, t.1.2⟩
  let br : Point := ⟨t.2.1, t.2.2⟩
  ⟨tl, br, get_center tl br⟩

/-- Method `Box.get_area`. -/
def Box.get_area (b : Box) : Int :=
  (b.bottom_right.x - b.top_left.x) * (b.bottom_right.y - b.top_left.y)

/-- Method `Box.get_overlap_area`. -/
def Box.get_overlap_area (s o : Box) : Int :=
    max 0 (min s.bottom_right.x o.bottom_right.x - max s.top_left.x o.top_left.x)
  * max 0 (min s.bottom_right.y o.bottom_right.y - max s.top_left.y o.top_left.y)

/-- Method `Box.as_tuple`. -/
def Box.as_tuple (b : Box) : BoxTuple :=
  ((b.top_left.x, b.top_left.y), (b.bottom_right.x, b.bottom_right.y))

/-- Squared center distance; `Box.get_center_distance` in the source is
its square root. -/
def Box.get_center_distance_sq (s o : Box) : Int :=
  s.center.get_distance_sq o.center

/-- Justification for embedding the source comparison
`self.box.get_center_distance(other) < 20` as
`get_center_distance_sq < 400`: for a nonnegative real `d`,
`√d < 20 ↔ d < 400`. -/
theorem sqrt_lt_twenty_iff (d : ℝ) :
    Real.sqrt d < 20 ↔ d < 400 := by
  rw [Real.sqrt_lt' (by norm_num : (0:ℝ) < 20)]
  norm_num

/-- Class `Vehicle` from `track.py`.  `box` is the representative box,
`None` (here `none`) marking an object pending removal; `boxes` is the
claim window, most recent first. -/
structure Vehicle where
  box : Option Box
  window_size : Nat
  boxes : List Box
  frames_since_detected : Nat
  frames_detected : Nat
deriving DecidableEq, Repr

/-- Constructor `Vehicle.__init__`. -/
def Vehicle.init (box : Box) (window_size : Nat) : Vehicle :=
  { box := some box
    window_size := window_size
    boxes := [box]
    frames_since_detected := 0
    frames_detected := 1 }

/-- Method `Vehicle.update_box`: recompute the representative box as the
corner-wise mean of the window, with Python floor division (the source
accumulates the four coordinate sums in a loop and then divides each by
the window length). -/
def Vehicle.update_box (v : Vehicle) : Vehicle :=
  let n : Int := v.boxes.length
  { v with box := some (mkBox
      ((((v.boxes.map fun (b : Box) => b.top_left.x).sum).fdiv n,
        ((v.boxes.map fun (b : Box) => b.top_left.y).sum).fdiv n),
       (((v.boxes.map fun (b : Box) => b.bottom_right.x).sum).fdiv n,
        ((v.boxes.map fun (b : Box) => b.bottom_right.y).sum).fdiv n))) }

/-- Method `Vehicle.check_ownership_single`.  Dereferences `self.box`, so a
`none` representative is a crash (`none` result).  On a successful
claim, pushes the candidate to the front of the window, pops the oldest
entry when the window exceeds `window_size`, and recomputes the
representative box. -/
def Vehicle.check_ownership_single (v : Vehicle) (other : Box) :
    Option (Vehicle × Bool) :=
  match v.box with
  | none => none
  | some b =>
    if b.get_overlap_area other > 0 ∨ b.get_center_distance_sq other < 400 then
      let boxes1 := other :: v.boxes
      let boxes2 := if boxes1.length > v.window_size then boxes1.dropLast else boxes1
      some (({ v with boxes := boxes2 }).update_box, true)
    else
      some (v, false)

/-- The first loop of `Vehicle.check_ownership`: claim every candidate
box in order, threading the (mutated) vehicle. -/
def Vehicle.claimAll (v : Vehicle) : List Box → Option (Vehicle × List Bool)
  | [] => some (v, [])
  | b :: bs =>
    match v.check_ownership_single b with
    | none => none
    | some (v1, c) =>
      match v1.claimAll bs with
      | none => none
      | some (v2, cs) => some (v2, c :: cs)

/-- Method `Vehicle.check_ownership`: claim all candidates, then update the
detection counters; when no claim succeeded and the absence streak
exceeds `window_size`, null the representative box and reset
`frames_detected`. -/
def Vehicle.check_ownership (v : Vehicle) (boxes : List Box) :
    Option (Vehicle × List Bool) :=
  match v.claimAll boxes with
  | none => none
  | some (v1, claimed) =>
    if claimed.any id then
      some ({ v1 with frames_since_detected := 0,
                      frames_detected := v1.frames_detected + 1 }, claimed)
    else
      let v2 := { v1 with frames_since_detected := v1.frames_since_detected + 1 }
      if v2.frames_since_detected > v2.window_size then
        some ({ v2 with box := none, frames_detected := 0 }, claimed)
      else
        some (v2, claimed)

/-- A heatmap: cell value at row `y`, column `x`. -/
def Heatmap : Type := Int → Int → ℚ

/-- The all-zero heatmap. -/
def zeroHm : Heatmap := fun _ _ => 0

/-- Class `Frame` from `track.py`: a heatmap and the boxes extracted from it. -/
structure Frame where
  heatmap : Heatmap
  label_boxes : List BoxTuple

/-- Python `int(...)` on a rational: truncation toward zero. -/
def pyInt (q : ℚ) : Int :=
  if 0 ≤ q then ⌊q⌋ else ⌈q⌉

/-- Modelled from the spec: `sr.apply_threshold` lives in `search.py`,
which is not part of the tracking-core sources; per the spec it zeroes
out every cell with value ≤ the threshold. -/
def apply_threshold (hm : Heatmap) (threshold : Int) : Heatmap :=
  fun y x => if hm y x ≤ (threshold : ℚ) then 0 else hm y x

/-- Element-wise sum of the heatmaps of a list of frames
(`np.sum(heatmaps, axis = 0)`). -/
def sumHeatmaps (fs : List Frame) : Heatmap :=
  fun y x => (fs.map fun f => f.heatmap y x).sum

/-- Membership of cell `(y, x)` in the numpy slice
`[b.top_left.y : b.bottom_right.y, b.top_left.x : b.bottom_right.x]`. -/
def Box.containsCell (b : Box) (y x : Int) : Bool :=
  decide (b.top_left.y ≤ y) && decide (y < b.bottom_right.y) &&
  decide (b.top_left.x ≤ x) && decide (x < b.bottom_right.x)

/-- Multiply the cells of `b`'s region by 3 (the slice update
`heatmap[...] *= 3`). -/
def boostOne (b : Box) (hm : Heatmap) : Heatmap :=
  fun y x => if b.containsCell y x then 3 * hm y x else hm y x

/-- Method `Tracker.boost_heatmap`: amplify the region of every vehicle with
`frames_detected > 24`.  The source reads `vehicle.box`'s corners
without a `None` check, so a nulled box on a qualifying vehicle is a
crash (`none`). -/
def boost_heatmap : List Vehicle → Heatmap → Option Heatmap
  | [], hm => some hm
  | v :: vs, hm =>
    if v.frames_detected > 24 then
      match v.box with
      | none => none
      | some b => boost_heatmap vs (boostOne b hm)
    else
      boost_heatmap vs hm

/-- Class `Tracker` state from `track.py` (the opaque `searcher` and
`search_params` collaborators carry no tracking state and are omitted;
`heatmap_boxes_count` is the last stable box count). -/
structure Tracker where
  heatmap_window_size : Nat
  heatmap_threshold_per_frame : ℚ
  vehicle_window_size : Nat
  frames : List Frame
  smoothed_frames : List Frame
  vehicles : List Vehicle
  heatmap_boxes_count : Nat

/-- Constructor `Tracker.__init__` (both histories empty, no vehicles, stable count
0; no validation of the configuration values is performed). -/
def Tracker.init (hws : Nat) (tpf : ℚ) (vws : Nat) : Tracker :=
  { heatmap_window_size := hws
    heatmap_threshold_per_frame := tpf
    vehicle_window_size := vws
    frames := []
    smoothed_frames := []
    vehicles := []
    heatmap_boxes_count := 0 }

/-- Method `Tracker.add_frame`: prepend the new raw frame, dropping the oldest
when the history exceeds `heatmap_window_size`. -/
def Tracker.add_frame (t : Tracker) (heatmap : Heatmap)
    (label_boxes : List BoxTuple) : Tracker :=
  let fs := Frame.mk heatmap label_boxes :: t.frames
  { t with frames := if fs.length > t.heatmap_window_size then fs.dropLast else fs }

/-- Method `Tracker.add_smoothed_frame`. -/
def Tracker.add_smoothed_frame (t : Tracker) (heatmap : Heatmap)
    (boxes : List BoxTuple) : Tracker :=
  let fs := Frame.mk heatmap boxes :: t.smoothed_frames
  { t with smoothed_frames :=
      if fs.length > t.heatmap_window_size then fs.dropLast else fs }

/-- The loop of `Tracker.check_box_change`: walk the smoothed-frame
history with counter `i`; return `false` (early `return`, no reset) on
the first of the first three entries whose box count differs from the
new count, `true` (fall through to the reset) otherwise. -/
def countStable (newCount : Nat) : List Frame → Nat → Bool
  | [], _ => true
  | f :: fs, i =>
    if i ≥ 3 then true
    else if newCount ≠ f.label_boxes.length then false
    else countStable newCount fs (i + 1)

/-- Method `Tracker.check_box_change`: when the new smoothed box count differs
from the stable count, reset the vehicle list and adopt the new count
only if the change has stabilized over the recent smoothed history. -/
def Tracker.check_box_change (t : Tracker) (boxes : List BoxTuple) : Tracker :=
  if boxes.length ≠ t.heatmap_boxes_count then
    if countStable boxes.length t.smoothed_frames 0 then
      { t with vehicles := [], heatmap_boxes_count := boxes.length }
    else t
  else t

/-- The vehicle loop of `Tracker.update_vehicles`: run
`check_ownership` for every existing vehicle in order, OR-ing the
per-box claimed flags. -/
def updateVehiclesLoop : List Vehicle → List Box → List Bool →
    Option (List Vehicle × List Bool)
  | [], _, claimed => some ([], claimed)
  | v :: vs, boxes, claimed =>
    match v.check_ownership boxes with
    | none => none
    | some (v1, bc) =>
      match updateVehiclesLoop vs boxes (claimed.zipWith or bc) with
      | none => none
      | some (vs1, cl) => some (v1 :: vs1, cl)

/-- Method `Tracker.update_vehicles`: existing vehicles claim the candidate
boxes; every box left unclaimed spawns a fresh `Vehicle` appended after
the loop (so new vehicles never claim in their creation frame). -/
def Tracker.update_vehicles (t : Tracker) (box_tuples : List BoxTuple) :
    Option Tracker :=
  let boxes := box_tuples.map mkBox
  match updateVehiclesLoop t.vehicles boxes (List.replicate boxes.length false) with
  | none => none
  | some (vs, claimed) =>
    let newVehicles := (claimed.zip boxes).filterMap fun cb =>
      if cb.1 then none else some (Vehicle.init cb.2 t.vehicle_window_size)
    some { t with vehicles := vs ++ newVehicles }

/-- Method `Tracker.remove_vehicles`: drop every vehicle whose representative
box is `None`. -/
def Tracker.remove_vehicles (t : Tracker) : Tracker :=
  { t with vehicles := t.vehicles.filter fun v => v.box.isSome }

/-- Method `Tracker.smooth_heatmaps`: sum the raw history, boost, threshold at
`int(heatmap_threshold_per_frame * len(frames))`, and extract boxes.
The connected-region labelling (`scipy.ndimage.label` plus
`sr.convert_to_bboxes`, both external to the tracking core) is the
opaque parameter `lf`. -/
def Tracker.smooth_heatmaps (t : Tracker) (lf : Heatmap → List BoxTuple) :
    Option (Heatmap × List BoxTuple) :=
  match boost_heatmap t.vehicles (sumHeatmaps t.frames) with
  | none => none
  | some boosted =>
    let hm := apply_threshold boosted
      (pyInt (t.heatmap_threshold_per_frame * (t.frames.length : ℚ)))
    some (hm, lf hm)

/-- Method `Tracker.track` for one frame: the detector result
`(heatmap, label_boxes)` is the input; the final rendering step reads
but does not change the state, so the embedded step returns the
post-frame tracker state. -/
def Tracker.track (t : Tracker) (lf : Heatmap → List BoxTuple)
    (heatmap : Heatmap) (label_boxes : List BoxTuple) : Option Tracker :=
  let t1 := t.add_frame heatmap label_boxes
  match t1.smooth_heatmaps lf with
  | none => none
  | some (hm, boxes) =>
    let t2 := t1.add_smoothed_frame hm boxes
    let t3 := t2.check_box_change boxes
    match t3.update_vehicles boxes with
    | none => none
    | some t4 => some t4.remove_vehicles

/-- A labelling stub for concrete runs: no boxes are ever extracted. -/
def lfNone : Heatmap → List BoxTuple := fun _ => []

/-- The box counts of the smoothed-frame history, most recent first. -/
def smoothedCounts (t : Tracker) : List Nat :=
  t.smoothed_frames.map fun f => f.label_boxes.length

/-- The loop of `check_box_change` stops at the first of the three most
recent smoothed frames whose count differs from the new count; it falls
through to the reset exactly when the three most recent entries (or all
of them, if fewer) equal the new count. -/
theorem countStable_eq (n : Nat) (fs : List Frame) (i : Nat) :
    countStable n fs i =
      ((fs.take (3 - i)).all fun f => f.label_boxes.length == n) := by
  induction fs generalizing i with
  | nil => simp [countStable]
  | cons f fs ih =>
    by_cases hi : i ≥ 3
    · have h0 : 3 - i = 0 := Nat.sub_eq_zero_of_le hi
      simp [countStable, hi, h0]
    · have h3 : 3 - i = (3 - (i + 1)) + 1 := by omega
      rw [h3]
      simp only [countStable, if_neg hi, List.take_succ_cons, List.all_cons]
      rw [ih]
      by_cases hn : n = f.label_boxes.length
      · simp [hn]
      · have hn' : f.label_boxes.length ≠ n := fun h => hn h.symm
        simp [hn, hn']

/-- Concrete candidate-box lists with two and three boxes. -/
def twoBoxes : List BoxTuple := List.replicate 2 ((0, 0), (1, 1))

def threeBoxes : List BoxTuple := List.replicate 3 ((0, 0), (1, 1))

/-- A smoothed frame whose box count is `n`. -/
def frameCount (n : Nat) : Frame :=
  ⟨zeroHm, List.replicate n ((0, 0), (1, 1))⟩

/-- A live vehicle used to observe whether the object list is cleared. -/
def vScenario : Vehicle := Vehicle.init (mkBox ((100, 100), (200, 200))) 7

/-- One smoothed-history step: append a smoothed frame with the given
boxes and run `check_box_change` on them, exactly as `track` does after
`smooth_heatmaps` (the heatmap content is irrelevant to the count
logic, so the zero heatmap stands in). -/
def countStep (t : Tracker) (bxs : List BoxTuple) : Tracker :=
  (t.add_smoothed_frame zeroHm bxs).check_box_change bxs

def countSteps : Tracker → List (List BoxTuple) → Tracker
  | t, [] => t
  | t, b :: bs => countSteps (countStep t b) bs

/-- Steady state: stable count 2 for the recent history, one live
vehicle. -/
def tScenario : Tracker :=
  { Tracker.init 10 (17 / 10) 7 with
    smoothed_frames := [frameCount 2, frameCount 2, frameCount 2]
    vehicles := [vScenario]
    heatmap_boxes_count := 2 }

/-- State for the C1 counterexample: every smoothed-history entry has a
count (5) different from the incoming count (3). -/
def tCexChange : Tracker :=
  { Tracker.init 10 (17 / 10) 7 with
    smoothed_frames := [frameCount 5]
    vehicles := [vScenario]
    heatmap_boxes_count := 2 }

/-- C1, counterexample.  The incoming count 3 differs from the stable
count 2, and the single inspected smoothed-history entry has count 5 ≠
3, so the claim as stated ("if every inspected entry has a box count
different from the new count, the TrackedObject list is cleared and
`last_stable_box_count` is set to the new count") requires the vehicle
list to become empty and the stable count to become 3; the code leaves
both unchanged (it early-returns on the very first differing entry). -/
theorem C1_counterexample :
    tCexChange.heatmap_boxes_count = 2 ∧
    threeBoxes.length = 3 ∧
    smoothedCounts tCexChange = [5] ∧
    (tCexChange.check_box_change threeBoxes).vehicles = [vScenario] ∧
    (tCexChange.check_box_change threeBoxes).heatmap_boxes_count = 2 := by
  decide

/-- C1, amended: when the new smoothed box count differs from
`last_stable_box_count`, the tracker inspects up to 3 entries of the
smoothed-frame history (most recent first); if every inspected entry
has a box count EQUAL to the new count, the TrackedObject list is
cleared and `last_stable_box_count` is set to the new count; otherwise
(some inspected entry differs, or the count equals the stable count)
both are left unchanged.  Because `check_box_change` runs right after
the current smoothed frame is appended, a single outlier frame (count 2
stable, one frame of count 3, back to 2) never clears the object list,
while a new count persisting for 3 consecutive frames does clear it. -/
theorem C1_box_count_stabilization :
    (∀ (t : Tracker) (bxs : List BoxTuple),
      t.check_box_change bxs =
        if bxs.length ≠ t.heatmap_boxes_count ∧
           ((t.smoothed_frames.take 3).all
             fun f => f.label_boxes.length == bxs.length) = true
        then { t with vehicles := [], heatmap_boxes_count := bxs.length }
        else t) ∧
    ((countSteps tScenario [threeBoxes, twoBoxes]).vehicles = [vScenario] ∧
     (countSteps tScenario [threeBoxes, twoBoxes]).heatmap_boxes_count = 2) ∧
    ((countSteps tScenario [threeBoxes, threeBoxes, threeBoxes]).vehicles = [] ∧
     (countSteps tScenario
        [threeBoxes, threeBoxes, threeBoxes]).heatmap_boxes_count = 3) := by
  refine ⟨fun t bxs => ?_, by decide, by decide⟩
  unfold Tracker.check_box_change
  rw [countStable_eq]
  simp only [Nat.sub_zero]
  by_cases h1 : bxs.length ≠ t.heatmap_boxes_count
  · by_cases h2 : ((t.smoothed_frames.take 3).all
        fun f => f.label_boxes.length == bxs.length) = true
    · simp [h1, h2]
    · simp [h1, h2]
  · simp [h1]

/-- The value of one cell of a `smooth_heatmaps` result (`0` for the
crash case, which the claims never exercise). -/
def cellAt (r : Option (Heatmap × List BoxTuple)) (y x : Int) : ℚ :=
  match r with
  | none => 0
  | some (hm, _) => hm y x

/-- A raw frame whose heatmap is constant `q` (no label boxes). -/
def constFrame (q : ℚ) : Frame :=
  ⟨fun _ _ => q, []⟩

/-- Tracker in the spec's threshold example: threshold-per-frame 1.7,
five buffered raw frames of constant value `q`, no vehicles. -/
def tThreshold (q : ℚ) : Tracker :=
  ⟨10, 17 / 10, 7, List.replicate 5 (constFrame q), [], [], 0⟩

theorem pyInt_seventeen_halves : pyInt (17 / 2 : ℚ) = 8 := by
  rw [pyInt, if_pos (by norm_num : (0:ℚ) ≤ 17 / 2), Int.floor_eq_iff]
  constructor <;> norm_num

theorem tThreshold_smooth (q : ℚ) :
    (tThreshold q).smooth_heatmaps lfNone =
      some (apply_threshold (sumHeatmaps (tThreshold q).frames)
        (pyInt ((17 / 10 : ℚ) * (((tThreshold q).frames.length : ℕ) : ℚ))), []) :=
  rfl

theorem tThreshold_sum (q : ℚ) (y x : Int) :
    sumHeatmaps (tThreshold q).frames y x = 5 * q := by
  simp only [sumHeatmaps, tThreshold, constFrame, List.map_replicate,
    List.sum_replicate, nsmul_eq_mul]
  ring

/-- The cell value produced by the threshold pipeline on the
five-constant-frame tracker: the effective cut is the truncated
`int(1.7 * 5) = 8`, not the product 8.5. -/
theorem tThreshold_cell (q : ℚ) :
    cellAt ((tThreshold q).smooth_heatmaps lfNone) 0 0 =
      if 5 * q ≤ 8 then 0 else 5 * q := by
  rw [tThreshold_smooth]
  have hlen : ((tThreshold q).frames.length : ℕ) = 5 := by
    simp [tThreshold]
  simp only [cellAt, apply_threshold, hlen, tThreshold_sum]
  have hpy : pyInt ((17 / 10 : ℚ) * ((5 : ℕ) : ℚ)) = 8 := by
    have h : ((17 / 10 : ℚ) * ((5 : ℕ) : ℚ)) = 17 / 2 := by push_cast; ring
    rw [h, pyInt_seventeen_halves]
  rw [hpy]
  norm_num

/-- C2, counterexample.  With `heatmap_threshold_per_frame = 1.7` and 5
buffered frames of constant value 1.7 each, the accumulated cell value
is 8.5, which is ≤ the product 1.7 × 5 = 8.5, so the claim requires the
cell to be zeroed; the code thresholds at `int(1.7 * 5) = 8` and the
cell survives with value 8.5 ≠ 0. -/
theorem C2_counterexample :
    (tThreshold (17 / 10)).heatmap_threshold_per_frame = 17 / 10 ∧
    (tThreshold (17 / 10)).frames.length = 5 ∧
    cellAt ((tThreshold (17 / 10)).smooth_heatmaps lfNone) 0 0 = 17 / 2 ∧
    (17 : ℚ) / 2 ≤ (17 / 10) * 5 ∧
    (17 : ℚ) / 2 ≠ 0 := by
  refine ⟨rfl, by simp [tThreshold], ?_, by norm_num, by norm_num⟩
  rw [tThreshold_cell]
  norm_num

/-- C2, amended: after accumulation and boosting, every cell whose
value is ≤ `int(heatmap_threshold_per_frame × (number of frames in the
raw-frame history))` — the Python integer truncation of the product —
is zeroed, and every cell strictly above that integer survives.  With
`heatmap_threshold_per_frame = 1.7` and 5 frames buffered the effective
threshold is `int(8.5) = 8`; on integer cell values this coincides with
8.5, so a cell at 9 survives and a cell at 8 is zeroed. -/
theorem C2_threshold_truncated :
    (∀ (t : Tracker) (lf : Heatmap → List BoxTuple) (hm1 : Heatmap) (y x : Int),
        boost_heatmap t.vehicles (sumHeatmaps t.frames) = some hm1 →
        cellAt (t.smooth_heatmaps lf) y x =
          if hm1 y x ≤
              (pyInt (t.heatmap_threshold_per_frame * (t.frames.length : ℚ)) : ℚ)
          then 0 else hm1 y x) ∧
    pyInt ((17 / 10 : ℚ) * 5) = 8 ∧
    cellAt ((tThreshold (9 / 5)).smooth_heatmaps lfNone) 0 0 = 9 ∧
    cellAt ((tThreshold (8 / 5)).smooth_heatmaps lfNone) 0 0 = 0 := by
  refine ⟨fun t lf hm1 y x h => ?_, ?_, ?_, ?_⟩
  · simp [Tracker.smooth_heatmaps, h, cellAt, apply_threshold]
  · have h : ((17 / 10 : ℚ) * 5) = 17 / 2 := by norm_num
    rw [h, pyInt_seventeen_halves]
  · rw [tThreshold_cell]; norm_num
  · rw [tThreshold_cell]; norm_num

/-- Witness for `C2_threshold_truncated` at the 9-per-sum tracker: the
boost hypothesis holds by computation and the cell keeps its value 9
(which exceeds the truncated threshold 8). -/
theorem C2_threshold_truncated_witness :
    cellAt ((tThreshold (9 / 5)).smooth_heatmaps lfNone) 0 0 =
      if sumHeatmaps (tThreshold (9 / 5)).frames 0 0 ≤
          (pyInt ((tThreshold (9 / 5)).heatmap_threshold_per_frame *
            ((tThreshold (9 / 5)).frames.length : ℚ)) : ℚ)
      then 0 else sumHeatmaps (tThreshold (9 / 5)).frames 0 0 :=
  C2_threshold_truncated.1 (tThreshold (9 / 5)) lfNone
    (sumHeatmaps (tThreshold (9 / 5)).frames) 0 0 rfl

/-- The two boxes of the spec's averaging example. -/
def boxA : Box := mkBox ((0, 0), (10, 10))

def boxB : Box := mkBox ((2, 2), (12, 12))

/-- Vehicle whose window holds the averaging example's two boxes. -/
def vAvg : Vehicle := ⟨some boxA, 7, [boxA, boxB], 0, 1⟩

/-- Vehicle with a full window (`window_size = 2`, two boxes), used to
observe eviction on the next claim. -/
def vEvict : Vehicle := ⟨some boxA, 2, [boxA, boxB], 0, 1⟩

/-- C3: `check_ownership_single` returns true and merges the box iff
the representative overlaps it or their centers are closer than 20
pixels; on a true claim the box is pushed to the front of the window,
the oldest entry is evicted when the window exceeds `window_size`, and
the representative is recomputed as the corner-wise integer mean
(`((0,0),(10,10))` and `((2,2),(12,12))` average to `((1,1),(11,11))`;
the eviction instance drops the oldest of three boxes back to two). -/
theorem C3_claim_merge :
    (∀ (v : Vehicle) (b other : Box), v.box = some b →
      ((b.get_overlap_area other > 0 ∨ b.get_center_distance_sq other < 400) →
        v.check_ownership_single other =
          some (({ v with boxes :=
              if (other :: v.boxes).length > v.window_size
              then (other :: v.boxes).dropLast
              else other :: v.boxes }).update_box, true)) ∧
      (¬(b.get_overlap_area other > 0 ∨ b.get_center_distance_sq other < 400) →
        v.check_ownership_single other = some (v, false))) ∧
    vAvg.update_box.box = some (mkBox ((1, 1), (11, 11))) ∧
    vEvict.check_ownership_single boxB =
      some (⟨some (mkBox ((1, 1), (11, 11))), 2, [boxB, boxA], 0, 1⟩, true) := by
  refine ⟨fun v b other hb => ⟨fun hc => ?_, fun hc => ?_⟩, by decide, by decide⟩
  · simp [Vehicle.check_ownership_single, hb, hc]
  · simp [Vehicle.check_ownership_single, hb, hc]

/-- Witness for `C3_claim_merge`: the eviction vehicle's representative
is `some boxA`, the claim condition holds for `boxB`, and the merged
result is the one the theorem's true branch prescribes. -/
theorem C3_claim_merge_witness :
    vEvict.box = some boxA ∧
    (boxA.get_overlap_area boxB > 0 ∨ boxA.get_center_distance_sq boxB < 400) ∧
    vEvict.check_ownership_single boxB =
      some (({ vEvict with boxes :=
          if (boxB :: vEvict.boxes).length > vEvict.window_size
          then (boxB :: vEvict.boxes).dropLast
          else boxB :: vEvict.boxes }).update_box, true) :=
  ⟨rfl, by decide, (C3_claim_merge.1 vEvict boxA boxB rfl).1 (by decide)⟩

/-- Lemma: `check_ownership_single` never mutates the vehicle on a failed
claim. -/
theorem check_single_false (v v1 : Vehicle) (b : Box)
    (h : v.check_ownership_single b = some (v1, false)) : v1 = v := by
  cases hb : v.box with
  | none => simp [Vehicle.check_ownership_single, hb] at h
  | some rep =>
    by_cases hc : rep.get_overlap_area b > 0 ∨ rep.get_center_distance_sq b < 400
    · simp [Vehicle.check_ownership_single, hb, hc] at h
    · simp [Vehicle.check_ownership_single, hb, hc] at h
      exact h.symm

/-- When every per-candidate claim fails, `claimAll` leaves the vehicle
unchanged. -/
theorem claimAll_all_false (bs : List Box) :
    ∀ (v v' : Vehicle) (cl : List Bool),
      v.claimAll bs = some (v', cl) → cl.any id = false → v' = v := by
  induction bs with
  | nil =>
    intro v v' cl h _
    unfold Vehicle.claimAll at h
    simp at h
    exact h.1.symm
  | cons b bs ih =>
    intro v v' cl h hany
    simp only [Vehicle.claimAll] at h
    cases hs : v.check_ownership_single b with
    | none => simp only [hs] at h; exact Option.noConfusion h
    | some p =>
      obtain ⟨v1, c⟩ := p
      simp only [hs] at h
      cases hr : v1.claimAll bs with
      | none => simp only [hr] at h; exact Option.noConfusion h
      | some q =>
        obtain ⟨v2, cs⟩ := q
        simp only [hr, Option.some_inj, Prod.mk.injEq] at h
        obtain ⟨hv, hcl⟩ := h
        subst hv
        rw [← hcl] at hany
        simp only [List.any_cons, id, Bool.or_eq_false_iff] at hany
        obtain ⟨hc, hcs⟩ := hany
        subst hc
        have hv1 : v1 = v := check_single_false v v1 b hs
        subst hv1
        exact ih _ _ _ hr hcs

/-- One frame with no successful claim, as a total function
(`check_ownership` with an empty candidate list never crashes). -/
def stepNone (v : Vehicle) : Vehicle :=
  match v.check_ownership [] with
  | none => v
  | some (v', _) => v'

/-- Iterate `k` consecutive claimless frames. -/
def iterMiss : Nat → Vehicle → Vehicle
  | 0, v => v
  | n + 1, v => stepNone (iterMiss n v)

theorem stepNone_eq (v : Vehicle) :
    stepNone v =
      if v.frames_since_detected + 1 > v.window_size
      then { v with frames_since_detected := v.frames_since_detected + 1,
                    box := none, frames_detected := 0 }
      else { v with frames_since_detected := v.frames_since_detected + 1 } := by
  unfold stepNone Vehicle.check_ownership Vehicle.claimAll
  simp only [List.any_nil]
  by_cases hgt : v.frames_since_detected + 1 > v.window_size
  · simp [hgt]
  · simp [hgt]

/-- While the absence streak stays within the window size, each
claimless frame only increments `frames_since_detected`. -/
theorem iterMiss_within (k : Nat) :
    ∀ (v : Vehicle), v.frames_since_detected + k ≤ v.window_size →
      iterMiss k v = { v with frames_since_detected := v.frames_since_detected + k } := by
  induction k with
  | zero => intro v _; simp [iterMiss]
  | succ n ih =>
    intro v hle
    rw [iterMiss, ih v (by omega), stepNone_eq]
    have h1 : ¬ (({ v with frames_since_detected := v.frames_since_detected + n }
        : Vehicle).frames_since_detected + 1 >
        ({ v with frames_since_detected := v.frames_since_detected + n }
        : Vehicle).window_size) := by
      show ¬ (v.frames_since_detected + n + 1 > v.window_size)
      omega
    rw [if_neg h1]
    simp only [Vehicle.mk.injEq, true_and, and_true]
    omega

/-- A vehicle that starts a fresh absence streak and receives no claim
for `window_size + 1` consecutive frames ends with a nulled
representative box and `frames_detected = 0`. -/
theorem iterMiss_nulls (v : Vehicle) (h0 : v.frames_since_detected = 0) :
    (iterMiss (v.window_size + 1) v).box = none ∧
    (iterMiss (v.window_size + 1) v).frames_detected = 0 := by
  rw [iterMiss, iterMiss_within v.window_size v (by omega), stepNone_eq]
  have h1 : ({ v with frames_since_detected := v.frames_since_detected + v.window_size }
      : Vehicle).frames_since_detected + 1 >
      ({ v with frames_since_detected := v.frames_since_detected + v.window_size }
      : Vehicle).window_size := by
    show v.frames_since_detected + v.window_size + 1 > v.window_size
    omega
  rw [if_pos h1]
  exact ⟨rfl, rfl⟩

/-- When every claim failed (so `claimAll` returned the vehicle
unchanged and all-false flags), `check_ownership` increments the
absence counter and nulls the box / resets `frames_detected` exactly
when the streak exceeds `window_size`. -/
theorem check_ownership_of_claimAll_false (v : Vehicle) (boxes : List Box)
    (claimed : List Bool) (hca : v.claimAll boxes = some (v, claimed))
    (hany : claimed.any id = false) :
    v.check_ownership boxes = some (
      if v.frames_since_detected + 1 > v.window_size
      then { v with frames_since_detected := v.frames_since_detected + 1,
                    box := none, frames_detected := 0 }
      else { v with frames_since_detected := v.frames_since_detected + 1 },
      claimed) := by
  unfold Vehicle.check_ownership
  simp only [hca, hany]
  by_cases hgt : v.frames_since_detected + 1 > v.window_size
  · simp [hgt]
  · simp [hgt]

/-- C4: in a frame where no candidate box is claimed,
`frames_since_detected` is incremented, and exactly on the update where
it first exceeds `window_size` the representative box is set to `none`
and `frames_detected` is reset to 0; a vehicle that starts at
`frames_since_detected = 0` and receives zero claims for
`window_size + 1` consecutive frames is nulled, and a nulled vehicle is
absent from the vehicle list after the cleanup pass. -/
theorem C4_absence_lifecycle :
    (∀ (v v1 : Vehicle) (boxes : List Box) (cl : List Bool),
        v.claimAll boxes = some (v1, cl) → cl.any id = false →
        v.check_ownership boxes = some (
          if v.frames_since_detected + 1 > v.window_size
          then { v with frames_since_detected := v.frames_since_detected + 1,
                        box := none, frames_detected := 0 }
          else { v with frames_since_detected := v.frames_since_detected + 1 },
          cl)) ∧
    (∀ (v : Vehicle), v.frames_since_detected = 0 →
        (iterMiss (v.window_size + 1) v).box = none ∧
        (iterMiss (v.window_size + 1) v).frames_detected = 0) ∧
    (∀ (t : Tracker) (w : Vehicle), w.box = none →
        w ∉ t.remove_vehicles.vehicles) := by
  refine ⟨?_, iterMiss_nulls, ?_⟩
  · intro v v1 boxes cl hca hf
    have hv1 : v1 = v := claimAll_all_false boxes v v1 cl hca hf
    subst hv1
    exact check_ownership_of_claimAll_false _ boxes cl hca hf
  · intro t w hw hmem
    simp only [Tracker.remove_vehicles, List.mem_filter] at hmem
    rw [hw] at hmem
    simp at hmem

/-- Witness for `C4_absence_lifecycle`: a fresh vehicle with
`window_size = 2` is nulled after 3 claimless frames. -/
theorem C4_absence_lifecycle_witness :
    (iterMiss 3 (Vehicle.init boxA 2)).box = none ∧
    (iterMiss 3 (Vehicle.init boxA 2)).frames_detected = 0 :=
  C4_absence_lifecycle.2.1 (Vehicle.init boxA 2) rfl

/-- C5, counterexample.  The claim requires construction with
`heatmap_window_size = 0`, `object_window_size = 0` and
`heatmap_threshold_per_frame ≤ 0` to fail before any frame is
processed; the constructor performs no validation, the invalid tracker
is built, and a full frame is processed without any failure. -/
theorem C5_counterexample :
    (Tracker.init 0 0 0).heatmap_window_size = 0 ∧
    (Tracker.init 0 0 0).vehicle_window_size = 0 ∧
    (Tracker.init 0 0 0).heatmap_threshold_per_frame ≤ 0 ∧
    (Tracker.init 0 0 0).track lfNone zeroHm [] = some (Tracker.init 0 0 0) :=
  ⟨rfl, rfl, le_refl 0, rfl⟩

/-- C5, amended: the constructor performs no validation — any
configuration values, including non-positive window sizes and a
non-positive threshold, are accepted unchanged, and frames are
processed with them without any reported failure. -/
theorem C5_no_validation :
    (∀ (hws : Nat) (tpf : ℚ) (vws : Nat),
        Tracker.init hws tpf vws = ⟨hws, tpf, vws, [], [], [], 0⟩) ∧
    (Tracker.init 0 0 0).track lfNone zeroHm [] = some (Tracker.init 0 0 0) :=
  ⟨fun _ _ _ => rfl, rfl⟩

/-- Does boosting touch cell `(y, x)` on account of vehicle `v`?
(`frames_detected > 24` and the cell lies in the representative box.) -/
def qualifies (v : Vehicle) (y x : Int) : Bool :=
  decide (24 < v.frames_detected) &&
    (match v.box with
     | none => false
     | some b => b.containsCell y x)

/-- How many vehicles boost cell `(y, x)`. -/
def countBoost (vehicles : List Vehicle) (y x : Int) : Nat :=
  (vehicles.filter fun v => qualifies v y x).length

/-- Closed form of `boost_heatmap`: when every confidently-tracked
vehicle has a live box, the boosted heatmap multiplies each cell by 3
once per qualifying vehicle covering it (and leaves every other cell
unchanged, the multiplier being `3 ^ 0 = 1`). -/
theorem boost_heatmap_eq (vehicles : List Vehicle) :
    ∀ (hm : Heatmap), (∀ v ∈ vehicles, 24 < v.frames_detected → v.box.isSome) →
      boost_heatmap vehicles hm =
        some (fun y x => 3 ^ countBoost vehicles y x * hm y x) := by
  induction vehicles with
  | nil =>
    intro hm _
    simp only [boost_heatmap, Option.some_inj]
    funext y x
    simp [countBoost]
  | cons v vs ih =>
    intro hm h
    by_cases hfd : 24 < v.frames_detected
    · have hsome : v.box.isSome := h v (List.mem_cons_self _ _) hfd
      obtain ⟨b, hb⟩ := Option.isSome_iff_exists.mp hsome
      simp only [boost_heatmap, gt_iff_lt, if_pos hfd, hb]
      rw [ih (boostOne b hm) (fun w hw => h w (List.mem_cons_of_mem _ hw))]
      congr 1
      funext y x
      simp only [countBoost, List.filter_cons]
      by_cases hc : b.containsCell y x
      · have hq : qualifies v y x = true := by simp [qualifies, hfd, hb, hc]
        simp only [hq, if_pos, boostOne, hc, if_true, List.length_cons]
        rw [pow_succ]
        ring
      · have hq : qualifies v y x = false := by simp [qualifies, hfd, hb, hc]
        simp [hq, boostOne, hc, countBoost]
    · simp only [boost_heatmap, gt_iff_lt, if_neg hfd]
      rw [ih hm (fun w hw => h w (List.mem_cons_of_mem _ hw))]
      congr 1
      funext y x
      have hq : qualifies v y x = false := by simp [qualifies, hfd]
      simp [countBoost, List.filter_cons, hq]

/-- C6: boosting multiplies by 3 exactly the cells inside the boxes of
vehicles with `frames_detected > 24` (once per covering vehicle) and
modifies no other cell; a single qualifying vehicle triples exactly its
box's region, and a vehicle with `frames_detected = 24` produces no
boost at all. -/
theorem C6_boost :
    (∀ (vehicles : List Vehicle) (hm : Heatmap),
        (∀ v ∈ vehicles, 24 < v.frames_detected → v.box.isSome) →
        boost_heatmap vehicles hm =
          some (fun y x => 3 ^ countBoost vehicles y x * hm y x)) ∧
    (∀ (v : Vehicle) (b : Box) (hm : Heatmap), v.box = some b →
        24 < v.frames_detected →
        boost_heatmap [v] hm =
          some (fun y x => if b.containsCell y x then 3 * hm y x else hm y x)) ∧
    (∀ (v : Vehicle) (hm : Heatmap), v.frames_detected = 24 →
        boost_heatmap [v] hm = some hm) := by
  refine ⟨boost_heatmap_eq, fun v b hm hb hfd => ?_, fun v hm hfd => ?_⟩
  · simp only [boost_heatmap, gt_iff_lt, if_pos hfd, hb]
    rfl
  · simp [boost_heatmap, hfd]

/-- A constant-1 heatmap for the boost witness. -/
def oneHm : Heatmap := fun _ _ => 1

/-- A confidently-tracked vehicle (30 detected frames) over `boxA`. -/
def vBoost : Vehicle := ⟨some boxA, 7, [boxA], 0, 30⟩

/-- The value of one cell of a `boost_heatmap` result. -/
def boostCell (r : Option Heatmap) (y x : Int) : ℚ :=
  match r with
  | none => 0
  | some hm => hm y x

/-- Witness for `C6_boost`: the qualifying vehicle `vBoost` triples the
cell `(0, 0)` of the constant-1 heatmap. -/
theorem C6_boost_witness :
    boostCell (boost_heatmap [vBoost] oneHm) 0 0 = 3 := by
  rw [C6_boost.1 [vBoost] oneHm
    (by intro v hv _; rw [List.mem_singleton] at hv; subst hv; rfl)]
  have hc : countBoost [vBoost] 0 0 = 1 := by decide
  simp only [boostCell, hc, oneHm]
  norm_num

/-- Pushing onto a bounded deque and trimming once keeps it within the
capacity. -/
theorem bounded_push {α : Type} (x : α) (l : List α) (c : Nat)
    (h : l.length ≤ c) :
    (if (x :: l).length > c then (x :: l).dropLast else x :: l).length ≤ c := by
  by_cases hgt : (x :: l).length > c
  · rw [if_pos hgt, List.length_dropLast]
    simp only [List.length_cons]
    omega
  · rw [if_neg hgt]
    simp only [List.length_cons] at hgt ⊢
    omega

/-- A successful `check_ownership_single` keeps the window within
`window_size` (given it was within before), keeps `window_size`, and
leaves the representative box live. -/
theorem check_single_preserves (v v' : Vehicle) (b : Box) (c : Bool)
    (h : v.check_ownership_single b = some (v', c))
    (hw : v.boxes.length ≤ v.window_size) :
    v'.boxes.length ≤ v'.window_size ∧ v'.window_size = v.window_size ∧
    v'.box.isSome := by
  cases hb : v.box with
  | none => simp [Vehicle.check_ownership_single, hb] at h
  | some rep =>
    by_cases hc : rep.get_overlap_area b > 0 ∨ rep.get_center_distance_sq b < 400
    · simp only [Vehicle.check_ownership_single, hb, if_pos hc,
        Option.some_inj, Prod.mk.injEq] at h
      obtain ⟨hX, -⟩ := h
      subst hX
      refine ⟨?_, rfl, rfl⟩
      show (if (b :: v.boxes).length > v.window_size
            then (b :: v.boxes).dropLast else b :: v.boxes).length ≤ v.window_size
      exact bounded_push b v.boxes v.window_size hw
    · simp only [Vehicle.check_ownership_single, hb, if_neg hc,
        Option.some_inj, Prod.mk.injEq] at h
      obtain ⟨hX, -⟩ := h
      subst hX
      exact ⟨hw, rfl, by simp [hb]⟩

/-- Lemma: `claimAll` preserves the window bound, the window size and box
liveness. -/
theorem claimAll_preserves (bs : List Box) :
    ∀ (v v' : Vehicle) (cl : List Bool), v.claimAll bs = some (v', cl) →
      v.boxes.length ≤ v.window_size →
      v'.boxes.length ≤ v'.window_size ∧ v'.window_size = v.window_size ∧
      (v.box.isSome → v'.box.isSome) := by
  induction bs with
  | nil =>
    intro v v' cl h hw
    simp only [Vehicle.claimAll, Option.some_inj, Prod.mk.injEq] at h
    obtain ⟨hv, -⟩ := h
    subst hv
    exact ⟨hw, rfl, fun hs => hs⟩
  | cons b bs ih =>
    intro v v' cl h hw
    simp only [Vehicle.claimAll] at h
    cases hs : v.check_ownership_single b with
    | none => simp only [hs] at h; exact Option.noConfusion h
    | some p =>
      obtain ⟨v1, c⟩ := p
      simp only [hs] at h
      cases hr : v1.claimAll bs with
      | none => simp only [hr] at h; exact Option.noConfusion h
      | some q =>
        obtain ⟨v2, cs⟩ := q
        simp only [hr, Option.some_inj, Prod.mk.injEq] at h
        obtain ⟨hv, -⟩ := h
        subst hv
        obtain ⟨h1, h2, h3⟩ := check_single_preserves v v1 b c hs hw
        obtain ⟨g1, g2, g3⟩ := ih _ _ _ hr (h2 ▸ h1)
        exact ⟨g1, g2.trans h2, fun _ => g3 h3⟩

/-- The claimed-flag list of `claimAll` has one entry per candidate. -/
theorem claimAll_length (bs : List Box) :
    ∀ (v v' : Vehicle) (cl : List Bool), v.claimAll bs = some (v', cl) →
      cl.length = bs.length := by
  induction bs with
  | nil =>
    intro v v' cl h
    simp only [Vehicle.claimAll, Option.some_inj, Prod.mk.injEq] at h
    rw [← h.2]
    rfl
  | cons b bs ih =>
    intro v v' cl h
    simp only [Vehicle.claimAll] at h
    cases hs : v.check_ownership_single b with
    | none => simp only [hs] at h; exact Option.noConfusion h
    | some p =>
      obtain ⟨v1, c⟩ := p
      simp only [hs] at h
      cases hr : v1.claimAll bs with
      | none => simp only [hr] at h; exact Option.noConfusion h
      | some q =>
        obtain ⟨v2, cs⟩ := q
        simp only [hr, Option.some_inj, Prod.mk.injEq] at h
        obtain ⟨-, hcl⟩ := h
        rw [← hcl]
        simp [ih v1 v2 cs hr]

/-- Inversion for `check_ownership`: the result vehicle is the
`claimAll` vehicle with counters updated; window and window size are
untouched by the counter phase, and the box either survives or is
nulled. -/
theorem check_ownership_inv (v v' : Vehicle) (bs : List Box) (cl : List Bool)
    (h : v.check_ownership bs = some (v', cl)) :
    ∃ v1, v.claimAll bs = some (v1, cl) ∧
      v'.boxes = v1.boxes ∧ v'.window_size = v1.window_size ∧
      (v'.box = v1.box ∨ v'.box = none) := by
  unfold Vehicle.check_ownership at h
  cases hca : v.claimAll bs with
  | none => simp only [hca] at h; exact Option.noConfusion h
  | some p =>
    obtain ⟨v1, claimed⟩ := p
    simp only [hca] at h
    split at h
    · rw [Option.some_inj] at h
      cases h
      exact ⟨v1, rfl, rfl, rfl, Or.inl rfl⟩
    · split at h
      · rw [Option.some_inj] at h
        cases h
        exact ⟨v1, rfl, rfl, rfl, Or.inr rfl⟩
      · rw [Option.some_inj] at h
        cases h
        exact ⟨v1, rfl, rfl, rfl, Or.inl rfl⟩

/-- Per-vehicle window invariant: every live vehicle's window is within
its `window_size`, which equals the tracker's configured
`vehicle_window_size`. -/
def windowInv (t : Tracker) : Prop :=
  ∀ v ∈ t.vehicles, v.boxes.length ≤ v.window_size ∧
    v.window_size = t.vehicle_window_size

/-- Capacity invariant of the tracker state: both histories are within
`heatmap_window_size` and every vehicle window is within
`vehicle_window_size`. -/
def capInv (t : Tracker) : Prop :=
  t.frames.length ≤ t.heatmap_window_size ∧
  t.smoothed_frames.length ≤ t.heatmap_window_size ∧
  windowInv t

theorem capInv_init (hws : Nat) (tpf : ℚ) (vws : Nat) :
    capInv (Tracker.init hws tpf vws) := by
  refine ⟨by simp [Tracker.init], by simp [Tracker.init], ?_⟩
  intro v hv
  simp [Tracker.init] at hv

theorem capInv_add_frame (t : Tracker) (hm : Heatmap) (bxs : List BoxTuple)
    (h : capInv t) : capInv (t.add_frame hm bxs) := by
  obtain ⟨h1, h2, h3⟩ := h
  exact ⟨bounded_push _ t.frames t.heatmap_window_size h1, h2, h3⟩

theorem capInv_add_smoothed (t : Tracker) (hm : Heatmap) (bxs : List BoxTuple)
    (h : capInv t) : capInv (t.add_smoothed_frame hm bxs) := by
  obtain ⟨h1, h2, h3⟩ := h
  exact ⟨h1, bounded_push _ t.smoothed_frames t.heatmap_window_size h2, h3⟩

theorem capInv_check_box_change (t : Tracker) (bxs : List BoxTuple)
    (h : capInv t) : capInv (t.check_box_change bxs) := by
  obtain ⟨h1, h2, h3⟩ := h
  unfold Tracker.check_box_change
  split
  · split
    · refine ⟨h1, h2, ?_⟩
      intro v hv
      simp at hv
    · exact ⟨h1, h2, h3⟩
  · exact ⟨h1, h2, h3⟩

/-- The vehicle loop keeps every window within its size and preserves
each vehicle's `window_size`. -/
theorem loop_preserves (boxes : List Box) :
    ∀ (vs vs' : List Vehicle) (cl cl' : List Bool),
      updateVehiclesLoop vs boxes cl = some (vs', cl') →
      (∀ v ∈ vs, v.boxes.length ≤ v.window_size) →
      (∀ v ∈ vs', v.boxes.length ≤ v.window_size) ∧
      vs'.map Vehicle.window_size = vs.map Vehicle.window_size := by
  intro vs
  induction vs with
  | nil =>
    intro vs' cl cl' h _
    simp only [updateVehiclesLoop, Option.some_inj, Prod.mk.injEq] at h
    obtain ⟨hv, -⟩ := h
    subst hv
    exact ⟨by intro v hv; simp at hv, rfl⟩
  | cons v vs ih =>
    intro vs' cl cl' h hw
    simp only [updateVehiclesLoop] at h
    cases hco : v.check_ownership boxes with
    | none => simp only [hco] at h; exact Option.noConfusion h
    | some p =>
      obtain ⟨v1, bc⟩ := p
      simp only [hco] at h
      cases hl : updateVehiclesLoop vs boxes (cl.zipWith or bc) with
      | none => simp only [hl] at h; exact Option.noConfusion h
      | some q =>
        obtain ⟨vs1, cl1⟩ := q
        simp only [hl, Option.some_inj, Prod.mk.injEq] at h
        obtain ⟨hv, -⟩ := h
        subst hv
        obtain ⟨w1, hca, hboxes, hws, -⟩ := check_ownership_inv v v1 boxes bc hco
        obtain ⟨p1, p2, -⟩ :=
          claimAll_preserves boxes v w1 bc hca (hw v (List.mem_cons_self _ _))
        obtain ⟨g1, g2⟩ := ih vs1 (cl.zipWith or bc) cl1 hl
          (fun w hwmem => hw w (List.mem_cons_of_mem _ hwmem))
        constructor
        · intro w hwm
          rcases List.mem_cons.mp hwm with heq | hmem
          · subst heq
            rw [hboxes, hws]
            exact p1
          · exact g1 w hmem
        · simp only [List.map_cons, g2, List.cons.injEq]
          exact ⟨hws.trans p2, trivial⟩

theorem check_box_change_vws (t : Tracker) (bxs : List BoxTuple) :
    (t.check_box_change bxs).vehicle_window_size = t.vehicle_window_size := by
  unfold Tracker.check_box_change
  split
  · split
    · rfl
    · rfl
  · rfl

/-- Lemma: `update_vehicles` preserves the window invariant (new vehicles get
a one-box window, within any positive `vehicle_window_size`) and only
touches the vehicle list. -/
theorem update_vehicles_preserves (t t' : Tracker) (bts : List BoxTuple)
    (h : t.update_vehicles bts = some t')
    (hvws : 1 ≤ t.vehicle_window_size)
    (hw : windowInv t) :
    windowInv t' ∧ t'.frames = t.frames ∧ t'.smoothed_frames = t.smoothed_frames ∧
    t'.heatmap_window_size = t.heatmap_window_size ∧
    t'.vehicle_window_size = t.vehicle_window_size := by
  simp only [Tracker.update_vehicles] at h
  cases hl : updateVehiclesLoop t.vehicles (List.map mkBox bts)
      (List.replicate (List.map mkBox bts).length false) with
  | none => simp only [hl] at h; exact Option.noConfusion h
  | some p =>
    obtain ⟨vs, claimed⟩ := p
    simp only [hl, Option.some_inj] at h
    subst h
    refine ⟨?_, rfl, rfl, rfl, rfl⟩
    intro w hwm
    rcases List.mem_append.mp hwm with hin | hin
    · obtain ⟨g1, g2⟩ := loop_preserves _ t.vehicles vs _ claimed hl
        (fun u hu => (hw u hu).1)
      refine ⟨g1 w hin, ?_⟩
      have hmem : w.window_size ∈ vs.map Vehicle.window_size :=
        List.mem_map_of_mem _ hin
      rw [g2] at hmem
      obtain ⟨u, hu, hueq⟩ := List.mem_map.mp hmem
      rw [← hueq]
      exact (hw u hu).2
    · rw [List.mem_filterMap] at hin
      obtain ⟨cb, -, hcb⟩ := hin
      by_cases hc : cb.1
      · rw [if_pos hc] at hcb; exact Option.noConfusion hcb
      · rw [if_neg hc, Option.some_inj] at hcb
        subst hcb
        exact ⟨by simpa [Vehicle.init] using hvws, rfl⟩

theorem capInv_remove (t : Tracker) (h : capInv t) : capInv t.remove_vehicles := by
  obtain ⟨h1, h2, h3⟩ := h
  refine ⟨h1, h2, ?_⟩
  intro v hv
  exact h3 v (List.mem_of_mem_filter hv)

/-- A successful `track` step preserves the capacity invariant. -/
theorem track_capInv (t t' : Tracker) (lf : Heatmap → List BoxTuple)
    (hm : Heatmap) (bxs : List BoxTuple)
    (hvws : 1 ≤ t.vehicle_window_size)
    (hinv : capInv t) (h : t.track lf hm bxs = some t') : capInv t' := by
  unfold Tracker.track at h
  cases hsm : (t.add_frame hm bxs).smooth_heatmaps lf with
  | none => simp only [hsm] at h; exact Option.noConfusion h
  | some p =>
    obtain ⟨hm2, boxes⟩ := p
    simp only [hsm] at h
    cases hup : (((t.add_frame hm bxs).add_smoothed_frame hm2
        boxes).check_box_change boxes).update_vehicles boxes with
    | none => simp only [hup] at h; exact Option.noConfusion h
    | some t4 =>
      simp only [hup, Option.some_inj] at h
      subst h
      have i1 : capInv (t.add_frame hm bxs) := capInv_add_frame t hm bxs hinv
      have i2 := capInv_add_smoothed _ hm2 boxes i1
      have i3 := capInv_check_box_change _ boxes i2
      have hv3 : 1 ≤ (((t.add_frame hm bxs).add_smoothed_frame hm2
          boxes).check_box_change boxes).vehicle_window_size := by
        rw [check_box_change_vws]
        exact hvws
      obtain ⟨w1, f1, f2, f3, -⟩ :=
        update_vehicles_preserves _ t4 boxes hup hv3 i3.2.2
      have i4 : capInv t4 := by
        refine ⟨?_, ?_, w1⟩
        · rw [f1, f3]; exact i3.1
        · rw [f2, f3]; exact i3.2.1
      exact capInv_remove t4 i4

/-- C7: a successful per-frame update keeps both histories within
`heatmap_window_size` and every vehicle window within
`object_window_size` (the tracker's `vehicle_window_size`); moreover
the window bound is restored immediately after every single claim. -/
theorem C7_capacity :
    (∀ (t t' : Tracker) (lf : Heatmap → List BoxTuple) (hm : Heatmap)
        (bxs : List BoxTuple), 1 ≤ t.vehicle_window_size → capInv t →
        t.track lf hm bxs = some t' → capInv t') ∧
    (∀ (v v' : Vehicle) (b : Box) (c : Bool),
        v.check_ownership_single b = some (v', c) →
        v.boxes.length ≤ v.window_size → v'.boxes.length ≤ v'.window_size) :=
  ⟨fun t t' lf hm bxs h1 h2 h3 => track_capInv t t' lf hm bxs h1 h2 h3,
   fun v v' b c h hw => (check_single_preserves v v' b c h hw).1⟩

/-- The concrete post-frame state used by the C7 witness. -/
def tWitResult : Tracker :=
  ((Tracker.init 2 1 3).track lfNone zeroHm []).getD (Tracker.init 2 1 3)

/-- Witness for `C7_capacity`: a concrete frame step from a fresh
tracker with `heatmap_window_size = 2`, `vehicle_window_size = 3`. -/
theorem C7_capacity_witness :
    1 ≤ (Tracker.init 2 1 3).vehicle_window_size ∧
    capInv (Tracker.init 2 1 3) ∧ capInv tWitResult :=
  ⟨by decide, capInv_init 2 1 3,
   C7_capacity.1 (Tracker.init 2 1 3) tWitResult lfNone zeroHm []
     (by decide) (capInv_init 2 1 3) rfl⟩

/-- With a live representative box, a single ownership check always
returns (no crash) and keeps the box live. -/
theorem single_total (v : Vehicle) (rep : Box) (hb : v.box = some rep) (b : Box) :
    ∃ v1 c, v.check_ownership_single b = some (v1, c) ∧ v1.box.isSome := by
  by_cases hc : rep.get_overlap_area b > 0 ∨ rep.get_center_distance_sq b < 400
  · refine ⟨({ v with boxes :=
        if (b :: v.boxes).length > v.window_size
        then (b :: v.boxes).dropLast else b :: v.boxes }).update_box, true,
      ?_, ?_⟩
    · simp only [Vehicle.check_ownership_single, hb, if_pos hc]
    · rfl
  · exact ⟨v, false,
      by simp only [Vehicle.check_ownership_single, hb, if_neg hc],
      by simp [hb]⟩

theorem claimAll_total (bs : List Box) :
    ∀ (v : Vehicle), v.box.isSome →
      ∃ v' cl, v.claimAll bs = some (v', cl) ∧ v'.box.isSome := by
  induction bs with
  | nil => intro v hv; exact ⟨v, [], rfl, hv⟩
  | cons b bs ih =>
    intro v hv
    obtain ⟨rep, hb⟩ := Option.isSome_iff_exists.mp hv
    obtain ⟨v1, c, hs, hv1⟩ := single_total v rep hb b
    obtain ⟨v2, cs, hr, hv2⟩ := ih v1 hv1
    exact ⟨v2, c :: cs, by simp only [Vehicle.claimAll, hs, hr], hv2⟩

theorem check_ownership_total (v : Vehicle) (bs : List Box)
    (hv : v.box.isSome) :
    ∃ v' cl, v.check_ownership bs = some (v', cl) := by
  obtain ⟨v1, cl, hca, -⟩ := claimAll_total bs v hv
  unfold Vehicle.check_ownership
  simp only [hca]
  split
  · exact ⟨_, _, rfl⟩
  · split
    · exact ⟨_, _, rfl⟩
    · exact ⟨_, _, rfl⟩

theorem loop_total (boxes : List Box) :
    ∀ (vs : List Vehicle) (cl : List Bool), (∀ v ∈ vs, v.box.isSome) →
      ∃ vs' cl', updateVehiclesLoop vs boxes cl = some (vs', cl') := by
  intro vs
  induction vs with
  | nil => intro cl _; exact ⟨[], cl, rfl⟩
  | cons v vs ih =>
    intro cl h
    obtain ⟨v1, bc, hco⟩ :=
      check_ownership_total v boxes (h v (List.mem_cons_self _ _))
    obtain ⟨vs1, cl1, hl⟩ := ih (cl.zipWith or bc)
      (fun w hw => h w (List.mem_cons_of_mem _ hw))
    exact ⟨v1 :: vs1, cl1, by simp only [updateVehiclesLoop, hco, hl]⟩

theorem update_vehicles_total (t : Tracker) (bts : List BoxTuple)
    (h : ∀ v ∈ t.vehicles, v.box.isSome) :
    ∃ t', t.update_vehicles bts = some t' := by
  obtain ⟨vs', cl', hl⟩ := loop_total (List.map mkBox bts) t.vehicles
    (List.replicate (List.map mkBox bts).length false) h
  have hres : t.update_vehicles bts = some { t with vehicles := vs' ++ (cl'.zip (List.map mkBox bts)).filterMap (fun cb => if cb.1 then none else some (Vehicle.init cb.2 t.vehicle_window_size)) } := by
    simp only [Tracker.update_vehicles, hl]
  exact ⟨_, hres⟩

theorem boost_some (vs : List Vehicle) :
    ∀ (hm : Heatmap), (∀ v ∈ vs, v.box.isSome) →
      (boost_heatmap vs hm).isSome := by
  induction vs with
  | nil => intro hm _; rfl
  | cons v vs ih =>
    intro hm h
    by_cases hfd : 24 < v.frames_detected
    · obtain ⟨b, hb⟩ :=
        Option.isSome_iff_exists.mp (h v (List.mem_cons_self _ _))
      simp only [boost_heatmap, gt_iff_lt, if_pos hfd, hb]
      exact ih _ (fun w hw => h w (List.mem_cons_of_mem _ hw))
    · simp only [boost_heatmap, gt_iff_lt, if_neg hfd]
      exact ih _ (fun w hw => h w (List.mem_cons_of_mem _ hw))

/-- C8: after the removal pass at the end of every successful `track`
call no live vehicle has a null representative box; consequently, from
any state whose vehicles all have live boxes, the next `track` call
succeeds (never reaches the null-dereference branch), and in particular
`boost_heatmap` never reads a null box. -/
theorem C8_no_null_deref :
    (∀ (t t' : Tracker) (lf : Heatmap → List BoxTuple) (hm : Heatmap)
        (bxs : List BoxTuple), t.track lf hm bxs = some t' →
        ∀ v ∈ t'.vehicles, v.box.isSome) ∧
    (∀ (t : Tracker) (lf : Heatmap → List BoxTuple) (hm : Heatmap)
        (bxs : List BoxTuple), (∀ v ∈ t.vehicles, v.box.isSome) →
        (t.track lf hm bxs).isSome) ∧
    (∀ (vs : List Vehicle) (hm : Heatmap), (∀ v ∈ vs, v.box.isSome) →
        (boost_heatmap vs hm).isSome) := by
  refine ⟨?_, ?_, boost_some⟩
  · intro t t' lf hm bxs h v hv
    unfold Tracker.track at h
    cases hsm : (t.add_frame hm bxs).smooth_heatmaps lf with
    | none => simp only [hsm] at h; exact Option.noConfusion h
    | some p =>
      obtain ⟨hm2, boxes⟩ := p
      simp only [hsm] at h
      cases hup : (((t.add_frame hm bxs).add_smoothed_frame hm2
          boxes).check_box_change boxes).update_vehicles boxes with
      | none => simp only [hup] at h; exact Option.noConfusion h
      | some t4 =>
        simp only [hup, Option.some_inj] at h
        subst h
        have hv2 : v ∈ t4.vehicles.filter (fun w => w.box.isSome) := hv
        exact (List.mem_filter.mp hv2).2
  · intro t lf hm bxs hlive
    unfold Tracker.track
    have hb := boost_some (t.add_frame hm bxs).vehicles
      (sumHeatmaps (t.add_frame hm bxs).frames) hlive
    cases hsm : (t.add_frame hm bxs).smooth_heatmaps lf with
    | none =>
      exfalso
      unfold Tracker.smooth_heatmaps at hsm
      cases hbo : boost_heatmap (t.add_frame hm bxs).vehicles
          (sumHeatmaps (t.add_frame hm bxs).frames) with
      | none => rw [hbo] at hb; simp at hb
      | some hm1 => simp only [hbo] at hsm; exact Option.noConfusion hsm
    | some p =>
      obtain ⟨hm2, boxes⟩ := p
      simp only [hsm]
      have hlive3 : ∀ v ∈ (((t.add_frame hm bxs).add_smoothed_frame hm2
          boxes).check_box_change boxes).vehicles, v.box.isSome := by
        unfold Tracker.check_box_change
        split
        · split
          · intro v hv; simp at hv
          · exact hlive
        · exact hlive
      obtain ⟨t4, ht4⟩ := update_vehicles_total _ boxes hlive3
      simp only [ht4, Option.isSome_some]

/-- Witness for `C8_no_null_deref`: the empty-vehicle fresh tracker
satisfies the liveness hypothesis and the frame step succeeds. -/
theorem C8_no_null_deref_witness :
    ((Tracker.init 2 1 3).track lfNone zeroHm []).isSome :=
  C8_no_null_deref.2.1 (Tracker.init 2 1 3) lfNone zeroHm []
    (by intro v hv; simp [Tracker.init] at hv)

/-- The second loop of `Tracker.update_vehicles`: one fresh vehicle per
unclaimed candidate box, in candidate order. -/
def spawn (claimed : List Bool) (boxes : List Box) (ws : Nat) : List Vehicle :=
  (claimed.zip boxes).filterMap fun cb =>
    if cb.1 then none else some (Vehicle.init cb.2 ws)

theorem spawn_replicate_false (boxes : List Box) (ws : Nat) :
    spawn (List.replicate boxes.length false) boxes ws =
      boxes.map (fun b => Vehicle.init b ws) := by
  induction boxes with
  | nil => rfl
  | cons b bs ih =>
    simp only [spawn, List.length_cons, List.replicate, List.zip_cons_cons,
      List.filterMap_cons, List.map_cons] at ih ⊢
    rw [if_neg (by simp)]
    simp only [ih]

/-- Empty-history tracker used for the C9 spawning example. -/
def tNine : Tracker := Tracker.init 10 (17 / 10) 7

def btOv1 : BoxTuple := ((0, 0), (10, 10))

def btOv2 : BoxTuple := ((5, 5), (15, 15))

/-- C9: a fresh vehicle is seeded with a one-box window,
`frames_detected = 1` and `frames_since_detected = 0`; after the claim
loop over the pre-existing vehicles, `update_vehicles` appends exactly
one fresh vehicle per unclaimed candidate box (so vehicles created in
the current frame never claim in their creation frame); with no
pre-existing vehicles every candidate spawns, and two mutually
overlapping unclaimed boxes create two separate vehicles. -/
theorem C9_unclaimed_spawn :
    (∀ (b : Box) (ws : Nat), (Vehicle.init b ws).boxes = [b] ∧
        (Vehicle.init b ws).frames_detected = 1 ∧
        (Vehicle.init b ws).frames_since_detected = 0 ∧
        (Vehicle.init b ws).box = some b) ∧
    (∀ (t : Tracker) (bts : List BoxTuple) (vs : List Vehicle) (cl : List Bool),
        updateVehiclesLoop t.vehicles (bts.map mkBox)
            (List.replicate (bts.map mkBox).length false) = some (vs, cl) →
        t.update_vehicles bts =
          some { t with vehicles := vs ++ spawn cl (bts.map mkBox) t.vehicle_window_size }) ∧
    (∀ (t : Tracker) (bts : List BoxTuple), t.vehicles = [] →
        t.update_vehicles bts =
          some { t with vehicles := (bts.map mkBox).map (fun b => Vehicle.init b t.vehicle_window_size) }) ∧
    ((mkBox btOv1).get_overlap_area (mkBox btOv2) > 0 ∧
      tNine.update_vehicles [btOv1, btOv2] =
        some { tNine with vehicles := [Vehicle.init (mkBox btOv1) 7, Vehicle.init (mkBox btOv2) 7] }) := by
  refine ⟨fun b ws => ⟨rfl, rfl, rfl, rfl⟩, ?_, ?_, by decide, ?_⟩
  · intro t bts vs cl h
    simp only [Tracker.update_vehicles, h, spawn]
  · intro t bts hv
    have hl : updateVehiclesLoop t.vehicles (bts.map mkBox)
        (List.replicate (bts.map mkBox).length false) =
        some ([], List.replicate (bts.map mkBox).length false) := by
      rw [hv]
      rfl
    simp only [Tracker.update_vehicles, hl]
    rw [← spawn_replicate_false (bts.map mkBox) t.vehicle_window_size]
    simp [spawn]
  · rfl

/-- The claimed-flag list of a `check_ownership` run (`[]` for the
crash case, which these runs never hit). -/
def claimedFlags (r : Option (Vehicle × List Bool)) : List Bool :=
  match r with
  | none => []
  | some (_, cl) => cl

/-- The vehicle and candidate boxes of the C10 order-dependence
example. -/
def vOrder : Vehicle := Vehicle.init (mkBox ((0, 0), (10, 10))) 7

def bOrd1 : Box := mkBox ((8, 8), (18, 18))

def bOrd2 : Box := mkBox ((15, 15), (25, 25))

/-- C10: each successful claim updates the representative box before
the next candidate is tested, so claiming is order dependent: with the
same starting vehicle, the candidate list `[bOrd1, bOrd2]` gets both
boxes claimed (the representative moves toward `bOrd1` first, bringing
`bOrd2`'s center within 20 pixels), while `[bOrd2, bOrd1]` leaves
`bOrd2` unclaimed (against the original representative it neither
overlaps nor is within 20 pixels). -/
theorem C10_order_dependent :
    claimedFlags (vOrder.check_ownership [bOrd1, bOrd2]) = [true, true] ∧
    claimedFlags (vOrder.check_ownership [bOrd2, bOrd1]) = [false, true] := by
  decide

/-- Witness for `C9_unclaimed_spawn`: with no pre-existing vehicles,
the two overlapping candidates each spawn their own vehicle. -/
theorem C9_unclaimed_spawn_witness :
    tNine.vehicles = [] ∧
    tNine.update_vehicles [btOv1, btOv2] =
      some { tNine with vehicles := [Vehicle.init (mkBox btOv1) 7, Vehicle.init (mkBox btOv2) 7] } :=
  ⟨rfl, C9_unclaimed_spawn.2.2.1 tNine [btOv1, btOv2] rfl⟩
